import Mathlib

/-!
Shallow embedding of the SubGames cycle-settlement and point-ledger engine
(`functions/index.js`).  Firestore documents are modelled as association
lists keyed by document path components; each callable function becomes a
pure state transformer `DB → … → CallResult α`.  Times are naturals
(milliseconds since epoch, as `Date.now()`); elapsed seconds are rationals.
Firestore `await` boundaries are sequenced; writes that had already been
committed before a later failure are kept in the state carried by the
error result (`CallResult.err` carries the database as it stands when the
error is thrown).
-/

namespace SubGames

/-- Association-list lookup: the value bound to the first occurrence of the key. -/
def alookup {α β : Type} [DecidableEq α] : List (α × β) → α → Option β
  | [], _ => none
  | (k, v) :: t, a => if k = a then some v else alookup t a

/-- Firestore `set`: replace the first binding of the key, or append a new one. -/
def aset {α β : Type} [DecidableEq α] : List (α × β) → α → β → List (α × β)
  | [], a, b => [(a, b)]
  | (k, v) :: t, a, b => if k = a then (a, b) :: t else (k, v) :: aset t a b

/-- Error codes of `functions.https.HttpsError` used by the source. -/
inductive ErrCode where
  | unauthenticated
  | invalidArgument
  | notFound
  | alreadyExists
  | permissionDenied
  | deadlineExceeded
  | failedPrecondition
  | resourceExhausted
  | internal
  deriving DecidableEq, Repr

/-- An `HttpsError`: machine-readable code plus human-readable message. -/
structure HttpsError where
  code : ErrCode
  msg : String
  deriving DecidableEq, Repr

/-- A `gameSessions` document. -/
structure GameSession where
  userId : String
  gameType : String
  difficulty : String
  startTime : Nat
  used : Bool
  expiresAt : Nat
  expectedPointValue : Nat
  deriving DecidableEq, Repr

/-- A `cycles/{cycleId}/picks/{userId}` document (fields read by the core). -/
structure CyclePick where
  creatorId : String
  pointsEarned : Nat
  deriving DecidableEq, Repr

/-- A `cycles/{cycleId}/leaderboard/{creatorId}` document. -/
structure LeaderboardEntry where
  creatorId : String
  totalPoints : Nat
  supporterCount : Nat
  supporters : List String
  firstToReachCurrentScore : Nat
  lastUpdated : Nat
  deriving DecidableEq, Repr

/-- A `users/{userId}` document (fields read or written by the core). -/
structure UserProfile where
  displayName : Option String
  photoURL : Option String
  promotionalURL : Option String
  totalGamesPlayed : Nat
  totalPointsEarned : Nat
  deriving DecidableEq, Repr

/-- A `cycles/{cycleId}/pityPointsEligible/{userId}` document. -/
structure PityEligibility where
  userId : String
  eligibleForPityPoint : Bool
  clickedWinnerLink : Bool
  winnerId : String
  theirCreatorId : String
  clickedAt : Option Nat
  deriving DecidableEq, Repr

/-- A `cycles/{cycleId}/pityPoints/{userId}` document: only `applyPityPoints`
reads or writes this collection, so only the fields it touches are modelled. -/
structure PityPoint where
  appliedToNextCycle : Bool
  clickedWinnerLink : Bool
  clickedAt : Option Nat
  deriving DecidableEq, Repr

/-- A `cycles/{cycleId}/startingBonuses/{creatorId}` document. -/
structure StartingBonus where
  creatorId : String
  pityPointsReceived : Nat
  fromSupporters : List String
  deriving DecidableEq, Repr

/-- A `cycleWinners/{cycleId}` document.  `cycleStartRaw` stands for the
timestamp parsed from the cycle id string. -/
structure CycleWinner where
  winnerId : String
  winnerName : String
  winnerPhotoURL : String
  promotionalURL : String
  finalScore : Nat
  supporterCount : Nat
  firstToReachScore : Nat
  announcedAt : Nat
  cycleStartRaw : String
  cycleEndTime : Nat
  deriving DecidableEq, Repr

/-- A `rateLimits/{userId_action}` document. -/
structure RateLimitRec where
  windowStart : Nat
  requestCount : Nat
  lastRequest : Nat
  deriving DecidableEq, Repr

/-- A `gameResults` audit document. -/
structure GameResult where
  userId : String
  sessionId : String
  cycleId : String
  gameType : String
  pointsAwarded : Nat
  timeTaken : Int
  completedAt : Nat
  tippedToCreator : String
  deriving DecidableEq, Repr

/-- The Firestore database state restricted to the collections the core
touches.  Per-cycle subcollections are keyed by `(cycleId, docId)`. -/
structure DB where
  gameSessions : List (String × GameSession)
  picks : List ((String × String) × CyclePick)
  leaderboard : List ((String × String) × LeaderboardEntry)
  users : List (String × UserProfile)
  pityPointsEligible : List ((String × String) × PityEligibility)
  pityPoints : List ((String × String) × PityPoint)
  startingBonuses : List ((String × String) × StartingBonus)
  cycleWinners : List (String × CycleWinner)
  rateLimits : List (String × RateLimitRec)
  gameResults : List GameResult
  deriving DecidableEq, Repr

/-- Outcome of one callable invocation: the database as left behind (writes
committed before a thrown error persist, mirroring sequenced `await`s), plus
either the returned value or the thrown `HttpsError`. -/
inductive CallResult (α : Type) where
  | ok (db : DB) (val : α)
  | err (db : DB) (e : HttpsError)
  deriving DecidableEq, Repr

/-- The database state an invocation leaves behind. -/
def CallResult.db {α : Type} : CallResult α → DB
  | .ok d _ => d
  | .err d _ => d

/-- The returned value, when the invocation did not throw. -/
def CallResult.value {α : Type} : CallResult α → Option α
  | .ok _ v => some v
  | .err _ _ => none

/-- The thrown error code, when the invocation threw. -/
def CallResult.errCode {α : Type} : CallResult α → Option ErrCode
  | .ok _ _ => none
  | .err _ e => some e.code

/-- Estimated minutes until the window resets:
`Math.ceil((windowMs - (now - windowStart)) / 1000 / 60)`. -/
def rateLimitTimeLeft (windowMs elapsed : Nat) : Nat :=
  (windowMs - elapsed + 59999) / 60000

/-- The `resource-exhausted` error thrown by the rate limiter, carrying the
estimated retry-after in its message. -/
def rateLimitError (windowMs elapsed : Nat) : HttpsError :=
  ⟨.resourceExhausted,
    "Rate limit exceeded. Please try again in " ++
      toString (rateLimitTimeLeft windowMs elapsed) ++ " minute(s)."⟩

/-- `checkRateLimit(userId, action, maxRequests, windowMinutes)`.  Fixed-window
counter on the `rateLimits/{userId_action}` document.  `now` is `Date.now()`;
clock is assumed monotone, so `now - windowStart` in `Nat` matches JS. -/
def checkRateLimit (db : DB) (userId action : String)
    (maxRequests windowMinutes now : Nat) : CallResult Unit :=
  let windowMs := windowMinutes * 60 * 1000
  let key := userId ++ "_" ++ action
  match alookup db.rateLimits key with
  | some data =>
      if now - data.windowStart < windowMs then
        if maxRequests ≤ data.requestCount then
          .err db (rateLimitError windowMs (now - data.windowStart))
        else
          let bumped : RateLimitRec :=
            { data with requestCount := data.requestCount + 1, lastRequest := now }
          .ok { db with rateLimits := aset db.rateLimits key bumped } ()
      else
        .ok { db with rateLimits := aset db.rateLimits key ⟨now, 1, now⟩ } ()
  | none =>
      .ok { db with rateLimits := aset db.rateLimits key ⟨now, 1, now⟩ } ()

/-- One row of the `GAME_VALIDATION` table.  The source stores the bounds in
seconds (`minSeconds`, `maxSeconds`) and compares them against
`actualSeconds = actualTimeTaken / 1000`; the model stores the same bounds in
milliseconds and compares them against `actualTimeTaken` directly, which is
the same comparison over the reals (`ms / 1000 < s ↔ ms < s * 1000`) and
exact for every configured bound. -/
structure GameRule where
  minMs : Nat
  maxMs : Nat
  points : Nat
  deriving DecidableEq, Repr

/-- The `GAME_VALIDATION` map literal: per game type
`(minSeconds, maxSeconds, points)`, bounds in milliseconds
(`reaction` has `minSeconds: 0.05`, i.e. 50 ms). -/
def GAME_VALIDATION (gameType : String) : Option GameRule :=
  if gameType = "whackAMole" then some ⟨3000, 120000, 3⟩
  else if gameType = "blockBlast" then some ⟨2000, 180000, 5⟩
  else if gameType = "memoryFlip" then some ⟨5000, 150000, 6⟩
  else if gameType = "colorMatch" then some ⟨8000, 200000, 8⟩
  else if gameType = "patternPro" then some ⟨10000, 240000, 10⟩
  else if gameType = "reaction" then some ⟨50, 60000, 1⟩
  else none

/-- The value returned by a successful `submitGameResult`. -/
structure SubmitResult where
  pointsAwarded : Nat
  creatorId : String
  deriving DecidableEq, Repr

/-- The part of `submitGameResult` that runs after the session document has
been read: validation against the session snapshot, the points transaction,
marking the session used and appending the audit record.  Split out because
the session read is an `await` boundary: a concurrently running invocation
may have changed the database between the read and the rest. -/
def submitAfterSessionRead (db : DB) (userId sessionId : String)
    (session : GameSession) (timeTaken : Int) (now : Nat) (cycleId : String) :
    CallResult SubmitResult :=
  if session.used then .err db ⟨.alreadyExists, "Session already used"⟩
  else if session.userId ≠ userId then .err db ⟨.permissionDenied, "Not your session"⟩
  else if session.expiresAt < now then .err db ⟨.deadlineExceeded, "Session expired"⟩
  else
    match GAME_VALIDATION session.gameType with
    | none => .err db ⟨.invalidArgument, "Unknown game type: " ++ session.gameType⟩
    | some validation =>
      -- `actualTimeTaken = Date.now() - startTime`, in milliseconds (monotone
      -- clock assumed, so `Nat` subtraction matches).  The messages print the
      -- bound in (truncated) seconds; the bound itself is compared exactly.
      let actualTimeTaken : Nat := now - session.startTime
      if actualTimeTaken < validation.minMs then
        .err db ⟨.failedPrecondition,
          "Game completed too quickly. Minimum time is " ++
            toString (validation.minMs / 1000) ++ " seconds."⟩
      else if validation.maxMs < actualTimeTaken then
        .err db ⟨.deadlineExceeded,
          "Game took too long. Maximum time is " ++
            toString (validation.maxMs / 1000) ++ " seconds."⟩
      else
        let pointsAwarded := validation.points
        match alookup db.picks (cycleId, userId) with
        | none => .err db ⟨.failedPrecondition, "Must pick a creator first"⟩
        | some pick =>
          let creatorId := pick.creatorId
          match alookup db.users userId with
          | none =>
              -- `transaction.update` on a missing `users` document makes the
              -- whole transaction fail; nothing of it is committed.
              .err db ⟨.internal, "transaction update of missing users document"⟩
          | some user =>
            let newPick : CyclePick :=
              { pick with pointsEarned := pick.pointsEarned + pointsAwarded }
            let newLeaderboard :=
              match alookup db.leaderboard (cycleId, creatorId) with
              | none =>
                  aset db.leaderboard (cycleId, creatorId)
                    ⟨creatorId, pointsAwarded, 1, [userId], now, now⟩
              | some entry =>
                  let base : LeaderboardEntry :=
                    { entry with totalPoints := entry.totalPoints + pointsAwarded,
                                 lastUpdated := now }
                  if userId ∈ entry.supporters then
                    aset db.leaderboard (cycleId, creatorId) base
                  else
                    let withSupporter : LeaderboardEntry :=
                      { base with supporters := base.supporters ++ [userId],
                                  supporterCount := base.supporterCount + 1 }
                    aset db.leaderboard (cycleId, creatorId) withSupporter
            let newUser : UserProfile :=
              { user with totalGamesPlayed := user.totalGamesPlayed + 1,
                          totalPointsEarned := user.totalPointsEarned + pointsAwarded }
            let dbAfterTxn : DB :=
              { db with picks := aset db.picks (cycleId, userId) newPick,
                        leaderboard := newLeaderboard,
                        users := aset db.users userId newUser }
            -- After the transaction commits, `sessionDoc.ref.update` patches
            -- the session document as currently committed.
            match alookup dbAfterTxn.gameSessions sessionId with
            | none => .err dbAfterTxn ⟨.internal, "update of missing session document"⟩
            | some cur =>
              let usedSession : GameSession := { cur with used := true }
              let dbUsed : DB :=
                { dbAfterTxn with
                    gameSessions := aset dbAfterTxn.gameSessions sessionId usedSession }
              let audit : GameResult :=
                ⟨userId, sessionId, cycleId, session.gameType, pointsAwarded,
                  timeTaken, now, creatorId⟩
              .ok { dbUsed with gameResults := dbUsed.gameResults ++ [audit] }
                ⟨pointsAwarded, creatorId⟩

/-- `submitGameResult(sessionId, timeTaken)`.  `currentCycleId` stands for
`getCycleId()` evaluated at call time. -/
def submitGameResult (db : DB) (auth : Option String) (sessionId : String)
    (timeTaken : Int) (now : Nat) (currentCycleId : String) : CallResult SubmitResult :=
  match auth with
  | none => .err db ⟨.unauthenticated, "Must be signed in to submit game results."⟩
  | some userId =>
    match checkRateLimit db userId "submitGameResult" 30 60 now with
    | .err db1 e => .err db1 e
    | .ok db1 _ =>
      match alookup db1.gameSessions sessionId with
      | none => .err db1 ⟨.notFound, "Session not found"⟩
      | some session =>
        submitAfterSessionRead db1 userId sessionId session timeTaken now currentCycleId

/-- The leaderboard documents of one cycle. -/
def entriesFor (db : DB) (cycleId : String) : List LeaderboardEntry :=
  (db.leaderboard.filter (fun p => p.1.1 == cycleId)).map (fun p => p.2)

/-- Strictly better under the query order
`orderBy totalPoints desc, firstToReachCurrentScore asc`. -/
def beats (a b : LeaderboardEntry) : Bool :=
  decide (b.totalPoints < a.totalPoints) ||
    (a.totalPoints == b.totalPoints &&
      decide (a.firstToReachCurrentScore < b.firstToReachCurrentScore))

/-- Keep the better of the accumulator and the next entry under the query
order. -/
def pickBetter (acc x : LeaderboardEntry) : LeaderboardEntry :=
  if beats x acc then x else acc

/-- The document the `limit(1)` query returns: a maximal entry under the two
sort keys.  Among entries tied on both keys Firestore falls back to document
id order, which this model leaves as list order. -/
def selectTop : List LeaderboardEntry → Option LeaderboardEntry
  | [] => none
  | e :: t => some (t.foldl pickBetter e)

/-- The value returned by `calculateWinnerForCycle`. -/
inductive SettleResult where
  | noEntries
  | winner (winnerId winnerName : String)
  deriving DecidableEq, Repr

/-- The `cycleWinners` document written by settlement. -/
def winnerRecordOf (w : LeaderboardEntry) (profile : UserProfile)
    (cycleId : String) (now : Nat) : CycleWinner :=
  ⟨w.creatorId, profile.displayName.getD "Unknown", profile.photoURL.getD "",
    profile.promotionalURL.getD "", w.totalPoints, w.supporterCount,
    w.firstToReachCurrentScore, now, cycleId, now⟩

/-- `calculateWinnerForCycle(cycleId)`. -/
def calculateWinnerForCycle (db : DB) (cycleId : String) (now : Nat) :
    CallResult SettleResult :=
  match selectTop (entriesFor db cycleId) with
  | none => .ok db .noEntries
  | some w =>
    match alookup db.users w.creatorId with
    | none =>
        -- reading `.displayName` off the missing profile data throws
        .err db ⟨.internal, "winner profile document missing"⟩
    | some profile =>
      let winners := aset db.cycleWinners cycleId (winnerRecordOf w profile cycleId now)
      .ok { db with cycleWinners := winners }
        (.winner w.creatorId (profile.displayName.getD "Unknown"))

/-- `manualCalculateWinner(cycleId?)`: administrative replay of settlement.
`defaultCycleId` stands for `getCycleId(0)`. -/
def manualCalculateWinner (db : DB) (cycleIdArg : Option String)
    (defaultCycleId : String) (now : Nat) : CallResult SettleResult :=
  calculateWinnerForCycle db (cycleIdArg.getD defaultCycleId) now

/-- The eligibility fan-out shared by `awardPityPoints` and
`manualAwardPityPoints`: for every pick of the cycle whose creator is not the
winner, set a `pityPointsEligible` document. -/
def issueEligibility (elig : List ((String × String) × PityEligibility))
    (cycleId winnerId : String) (picks : List ((String × String) × CyclePick)) :
    List ((String × String) × PityEligibility) :=
  picks.foldl
    (fun acc p =>
      if p.1.1 == cycleId && p.2.creatorId != winnerId then
        aset acc (cycleId, p.1.2) ⟨p.1.2, true, false, winnerId, p.2.creatorId, none⟩
      else acc)
    elig

/-- `awardPityPoints`: Firestore trigger on creation of
`cycleWinners/{cycleId}`; `winnerId` comes from the created document. -/
def awardPityPoints (db : DB) (cycleId winnerId : String) : DB :=
  { db with pityPointsEligible :=
      issueEligibility db.pityPointsEligible cycleId winnerId db.picks }

/-- `manualAwardPityPoints(cycleId?)`. -/
def manualAwardPityPoints (db : DB) (cycleIdArg : Option String)
    (defaultCycleId : String) : CallResult Nat :=
  let cycleId := cycleIdArg.getD defaultCycleId
  match alookup db.cycleWinners cycleId with
  | none => .err db ⟨.notFound, "Winner not found for this cycle"⟩
  | some w =>
    let count :=
      (db.picks.filter (fun p => p.1.1 == cycleId && p.2.creatorId != w.winnerId)).length
    .ok { db with pityPointsEligible :=
            issueEligibility db.pityPointsEligible cycleId w.winnerId db.picks }
      count

/-- `applyPityPoints(previousCycleId, winnerId)`.  Reads eligibility from the
`pityPoints` subcollection; `currentCycleId` stands for `getCycleId()`.
Once the preconditions pass, the transaction body first queues
`transaction.update(leaderboardRef, …)` and only then calls
`await transaction.get(bonusRef)`; the Firestore SDK rejects any read issued
after a queued write inside a transaction, so every execution that reaches
the transaction throws there and commits nothing — the queued leaderboard
update, the `startingBonuses` upsert and the `pityPoints` mark are never
applied. -/
def applyPityPoints (db : DB) (auth : Option String)
    (previousCycleId _winnerId : String) (_now : Nat) (currentCycleId : String) :
    CallResult (Nat × String) :=
  match auth with
  | none => .err db ⟨.unauthenticated, "Must be signed in"⟩
  | some userId =>
    match alookup db.pityPoints (previousCycleId, userId) with
    | none => .err db ⟨.notFound, "No pity point found"⟩
    | some pityPoint =>
      if pityPoint.appliedToNextCycle then
        .err db ⟨.alreadyExists, "Pity point already applied"⟩
      else
        match alookup db.picks (currentCycleId, userId) with
        | none => .err db ⟨.failedPrecondition, "Must pick a creator in current cycle first"⟩
        | some _currentPick =>
            .err db ⟨.internal,
              "Firestore transactions require all reads to be executed before all writes"⟩

/-- The value returned by `clickWinnerLink`; the source always returns
`success: true` on these paths, so only the remaining fields are kept. -/
structure ClickResult where
  pityPointApplied : Bool
  message : Option String
  pointsAwarded : Option Nat
  deriving DecidableEq, Repr

/-- `clickWinnerLink(cycleId, winnerUrl)`: pity-point redemption.  Note that
the eligibility record, the pick and the leaderboard entry are all addressed
under the same `cycleId` argument. -/
def clickWinnerLink (db : DB) (auth : Option String) (cycleId _winnerUrl : String)
    (now : Nat) : CallResult ClickResult :=
  match auth with
  | none => .err db ⟨.unauthenticated, "Must be signed in"⟩
  | some userId =>
    match alookup db.pityPointsEligible (cycleId, userId) with
    | none => .ok db ⟨false, some "Not eligible for pity point", none⟩
    | some elig =>
      if !elig.eligibleForPityPoint then
        .ok db ⟨false, some "Not eligible for pity point", none⟩
      else if elig.clickedWinnerLink then
        .ok db ⟨false, some "Already claimed pity point", none⟩
      else
        match alookup db.picks (cycleId, userId) with
        | none => .ok db ⟨false, some "No creator pick found", none⟩
        | some pick =>
          let creatorId := pick.creatorId
          match alookup db.leaderboard (cycleId, creatorId) with
          | none =>
              .err db ⟨.internal, "transaction update of missing leaderboard document"⟩
          | some entry =>
            let entry2 : LeaderboardEntry :=
              { entry with totalPoints := entry.totalPoints + 1 }
            let pick2 : CyclePick := { pick with pointsEarned := pick.pointsEarned + 1 }
            let elig2 : PityEligibility :=
              { elig with clickedWinnerLink := true, clickedAt := some now }
            .ok { db with
                    leaderboard := aset db.leaderboard (cycleId, creatorId) entry2,
                    picks := aset db.picks (cycleId, userId) pick2,
                    pityPointsEligible := aset db.pityPointsEligible (cycleId, userId) elig2 }
              ⟨true, none, some 1⟩

/-- Contribution of one pick document to the points of `(cycleK, creatorC)`. -/
def pickContrib (key : String × String) (p : CyclePick) (cycleK creatorC : String) : Nat :=
  if key.1 = cycleK ∧ p.creatorId = creatorC then p.pointsEarned else 0

/-- Sum of `pointsEarned` across all picks of cycle `cycleK` referencing
creator `creatorC`. -/
def sumPointsFor (picks : List ((String × String) × CyclePick))
    (cycleK creatorC : String) : Nat :=
  (picks.map (fun q => pickContrib q.1 q.2 cycleK creatorC)).sum

/-- `totalPoints` of the leaderboard entry of `(cycleK, creatorC)`, zero when
the entry does not exist yet. -/
def lbPoints (lb : List ((String × String) × LeaderboardEntry))
    (cycleK creatorC : String) : Nat :=
  (alookup lb (cycleK, creatorC)).elim 0 (fun e => e.totalPoints)

theorem alookup_aset_self {α β : Type} [DecidableEq α] (l : List (α × β)) (k : α) (v : β) :
    alookup (aset l k v) k = some v := by
  induction l with
  | nil => simp [aset, alookup]
  | cons q t ih =>
    obtain ⟨k1, v1⟩ := q
    by_cases hq : k1 = k
    · simp [aset, hq, alookup]
    · simp [aset, hq, alookup, ih]

theorem alookup_aset_ne {α β : Type} [DecidableEq α] (l : List (α × β)) (k k2 : α) (v : β)
    (h : k ≠ k2) : alookup (aset l k v) k2 = alookup l k2 := by
  induction l with
  | nil => simp [aset, alookup, h]
  | cons q t ih =>
    obtain ⟨k1, v1⟩ := q
    by_cases hq : k1 = k
    · subst hq; simp [aset, alookup, h]
    · simp [aset, hq, alookup, ih]

theorem aset_aset_self {α β : Type} [DecidableEq α] (l : List (α × β)) (k : α) (v1 v2 : β) :
    aset (aset l k v1) k v2 = aset l k v2 := by
  induction l with
  | nil => simp [aset]
  | cons q t ih =>
    obtain ⟨k1, w⟩ := q
    by_cases hq : k1 = k
    · simp [aset, hq]
    · simp [aset, hq, ih]

theorem sumPointsFor_nil (K C : String) : sumPointsFor [] K C = 0 := rfl

theorem sumPointsFor_cons (k : String × String) (p : CyclePick)
    (t : List ((String × String) × CyclePick)) (K C : String) :
    sumPointsFor ((k, p) :: t) K C = pickContrib k p K C + sumPointsFor t K C := by
  simp [sumPointsFor]

/-- Replacing the binding of one key shifts the per-creator sum by the
difference of the contributions of the old and new pick. -/
theorem sumPointsFor_aset (l : List ((String × String) × CyclePick))
    (key : String × String) (pOld pNew : CyclePick) (K C : String) :
    alookup l key = some pOld →
    sumPointsFor (aset l key pNew) K C + pickContrib key pOld K C
      = sumPointsFor l K C + pickContrib key pNew K C := by
  induction l with
  | nil => intro hk; simp [alookup] at hk
  | cons q t ih =>
    intro hk
    obtain ⟨k1, v1⟩ := q
    by_cases hq : k1 = key
    · subst hq
      simp [alookup] at hk
      subst hk
      simp [aset, sumPointsFor_cons]
      omega
    · simp [alookup, hq] at hk
      have hrec := ih hk
      simp [aset, hq, sumPointsFor_cons]
      omega

theorem lbPoints_aset_self (lb : List ((String × String) × LeaderboardEntry))
    (K C : String) (e : LeaderboardEntry) :
    lbPoints (aset lb (K, C) e) K C = e.totalPoints := by
  simp [lbPoints, alookup_aset_self]

theorem lbPoints_aset_ne (lb : List ((String × String) × LeaderboardEntry))
    (k : String × String) (e : LeaderboardEntry) (K C : String) (h : k ≠ (K, C)) :
    lbPoints (aset lb k e) K C = lbPoints lb K C := by
  simp [lbPoints, alookup_aset_ne _ _ _ _ h]

/-- A successful rate-limit check only rewrites the `rateLimits` collection. -/
theorem checkRateLimit_ok_shape (db : DB) (u a : String) (m w n : Nat) (db1 : DB) (x : Unit)
    (h : checkRateLimit db u a m w n = .ok db1 x) :
    ∃ rl, db1 = { db with rateLimits := rl } := by
  simp only [checkRateLimit] at h
  split at h
  · split at h
    · split at h
      · exact CallResult.noConfusion h
      · rw [CallResult.ok.injEq] at h
        exact ⟨_, h.1.symm⟩
    · rw [CallResult.ok.injEq] at h
      exact ⟨_, h.1.symm⟩
  · rw [CallResult.ok.injEq] at h
    exact ⟨_, h.1.symm⟩

/-- Anatomy of a successful `submitAfterSessionRead`: the pick of the cycle is
bumped by the configured point value, and the leaderboard entry of the picked
creator is either created with that value or bumped by it (with
`firstToReachCurrentScore` untouched). -/
theorem submitAfterSessionRead_ok_shape
    (db : DB) (u sid : String) (sess : GameSession) (tT : Int) (now : Nat)
    (K0 : String) (db2 : DB) (r : SubmitResult)
    (h : submitAfterSessionRead db u sid sess tT now K0 = .ok db2 r) :
    ∃ validation pick, GAME_VALIDATION sess.gameType = some validation ∧
      alookup db.picks (K0, u) = some pick ∧
      r = ⟨validation.points, pick.creatorId⟩ ∧
      db2.picks = aset db.picks (K0, u)
        ({ pick with pointsEarned := pick.pointsEarned + validation.points }) ∧
      ((alookup db.leaderboard (K0, pick.creatorId) = none ∧
          db2.leaderboard = aset db.leaderboard (K0, pick.creatorId)
            ⟨pick.creatorId, validation.points, 1, [u], now, now⟩) ∨
        (∃ entry e2, alookup db.leaderboard (K0, pick.creatorId) = some entry ∧
          db2.leaderboard = aset db.leaderboard (K0, pick.creatorId) e2 ∧
          e2.totalPoints = entry.totalPoints + validation.points ∧
          e2.firstToReachCurrentScore = entry.firstToReachCurrentScore ∧
          e2.creatorId = entry.creatorId)) := by
  simp only [submitAfterSessionRead] at h
  split at h
  · exact CallResult.noConfusion h
  split at h
  · exact CallResult.noConfusion h
  split at h
  · exact CallResult.noConfusion h
  split at h
  · exact CallResult.noConfusion h
  rename_i validation hval
  split at h
  · exact CallResult.noConfusion h
  split at h
  · exact CallResult.noConfusion h
  split at h
  · exact CallResult.noConfusion h
  rename_i pick hpick
  split at h
  · exact CallResult.noConfusion h
  rename_i user huser
  cases hlb : alookup db.leaderboard (K0, pick.creatorId) with
  | none =>
    simp only [hlb] at h
    split at h
    · exact CallResult.noConfusion h
    rename_i cur hcur
    rw [CallResult.ok.injEq] at h
    obtain ⟨hX, hr⟩ := h
    subst hX
    exact ⟨validation, pick, hval, hpick, hr.symm, rfl, Or.inl ⟨hlb, rfl⟩⟩
  | some entry =>
    simp only [hlb] at h
    by_cases hsupp : u ∈ entry.supporters
    · rw [if_pos hsupp] at h
      split at h
      · exact CallResult.noConfusion h
      rename_i cur hcur
      rw [CallResult.ok.injEq] at h
      obtain ⟨hX, hr⟩ := h
      subst hX
      exact ⟨validation, pick, hval, hpick, hr.symm, rfl,
        Or.inr ⟨entry, _, hlb, rfl, rfl, rfl, rfl⟩⟩
    · rw [if_neg hsupp] at h
      split at h
      · exact CallResult.noConfusion h
      rename_i cur hcur
      rw [CallResult.ok.injEq] at h
      obtain ⟨hX, hr⟩ := h
      subst hX
      exact ⟨validation, pick, hval, hpick, hr.symm, rfl,
        Or.inr ⟨entry, _, hlb, rfl, rfl, rfl, rfl⟩⟩

/-- Anatomy of a successful `submitGameResult`, lifted over the auth check,
the rate limiter and the session read. -/
theorem submitGameResult_ok_shape
    (db : DB) (auth : Option String) (sid : String) (tT : Int) (now : Nat)
    (K0 : String) (db2 : DB) (r : SubmitResult)
    (h : submitGameResult db auth sid tT now K0 = .ok db2 r) :
    ∃ u pts pick, auth = some u ∧
      alookup db.picks (K0, u) = some pick ∧
      r = ⟨pts, pick.creatorId⟩ ∧
      db2.picks = aset db.picks (K0, u)
        ({ pick with pointsEarned := pick.pointsEarned + pts }) ∧
      ((alookup db.leaderboard (K0, pick.creatorId) = none ∧
          db2.leaderboard = aset db.leaderboard (K0, pick.creatorId)
            ⟨pick.creatorId, pts, 1, [u], now, now⟩) ∨
        (∃ entry e2, alookup db.leaderboard (K0, pick.creatorId) = some entry ∧
          db2.leaderboard = aset db.leaderboard (K0, pick.creatorId) e2 ∧
          e2.totalPoints = entry.totalPoints + pts ∧
          e2.firstToReachCurrentScore = entry.firstToReachCurrentScore ∧
          e2.creatorId = entry.creatorId)) := by
  cases auth with
  | none => exact CallResult.noConfusion h
  | some u =>
    simp only [submitGameResult] at h
    cases hrl : checkRateLimit db u "submitGameResult" 30 60 now with
    | err d e => simp only [hrl] at h; exact CallResult.noConfusion h
    | ok d1 x =>
      simp only [hrl] at h
      cases hs : alookup d1.gameSessions sid with
      | none => simp only [hs] at h; exact CallResult.noConfusion h
      | some sess =>
        simp only [hs] at h
        obtain ⟨rl, hd1⟩ := checkRateLimit_ok_shape db u _ 30 60 now d1 x hrl
        subst hd1
        obtain ⟨validation, pick, hval, hpick, hr, hp2, hlb2⟩ :=
          submitAfterSessionRead_ok_shape _ u sid sess tT now K0 db2 r h
        exact ⟨u, validation.points, pick, rfl, hpick, hr, hp2, hlb2⟩

/-- Anatomy of a non-throwing `clickWinnerLink`: either nothing was written,
or the pick and the leaderboard entry of the picked creator — both addressed
under the `cycleId` argument — were each bumped by one. -/
theorem clickWinnerLink_ok_shape (db : DB) (auth : Option String) (cy url : String)
    (now : Nat) (db2 : DB) (v : ClickResult)
    (h : clickWinnerLink db auth cy url now = .ok db2 v) :
    db2 = db ∨
    (∃ u elig pick entry, auth = some u ∧
      alookup db.pityPointsEligible (cy, u) = some elig ∧
      alookup db.picks (cy, u) = some pick ∧
      alookup db.leaderboard (cy, pick.creatorId) = some entry ∧
      db2.picks = aset db.picks (cy, u)
        ({ pick with pointsEarned := pick.pointsEarned + 1 }) ∧
      db2.leaderboard = aset db.leaderboard (cy, pick.creatorId)
        ({ entry with totalPoints := entry.totalPoints + 1 })) := by
  cases auth with
  | none => exact CallResult.noConfusion h
  | some u =>
    simp only [clickWinnerLink] at h
    split at h
    · rw [CallResult.ok.injEq] at h
      exact Or.inl h.1.symm
    rename_i elig he
    split at h
    · rw [CallResult.ok.injEq] at h
      exact Or.inl h.1.symm
    split at h
    · rw [CallResult.ok.injEq] at h
      exact Or.inl h.1.symm
    split at h
    · rw [CallResult.ok.injEq] at h
      exact Or.inl h.1.symm
    rename_i pick hpick
    split at h
    · exact CallResult.noConfusion h
    rename_i entry hentry
    rw [CallResult.ok.injEq] at h
    obtain ⟨hX, hv⟩ := h
    subst hX
    exact Or.inr ⟨u, elig, pick, entry, rfl, he, hpick, hentry, rfl, rfl⟩

/-- Arithmetic core of conservation: bumping one pick of `(K0, u)` and the
leaderboard entry of its creator by the same amount preserves the per
`(cycle, creator)` equality. -/
theorem conservation_step (dbPicks : List ((String × String) × CyclePick))
    (dbLb : List ((String × String) × LeaderboardEntry))
    (K0 u : String) (pick : CyclePick) (pts : Nat)
    (picks2 : List ((String × String) × CyclePick))
    (lb2 : List ((String × String) × LeaderboardEntry)) (K C : String)
    (hpick : alookup dbPicks (K0, u) = some pick)
    (hp2 : picks2 = aset dbPicks (K0, u)
        ({ pick with pointsEarned := pick.pointsEarned + pts }))
    (hlb2 : (∃ entry e2, alookup dbLb (K0, pick.creatorId) = some entry ∧
        lb2 = aset dbLb (K0, pick.creatorId) e2 ∧
        e2.totalPoints = entry.totalPoints + pts) ∨
      (∃ fst lst, alookup dbLb (K0, pick.creatorId) = none ∧
        lb2 = aset dbLb (K0, pick.creatorId)
          ⟨pick.creatorId, pts, 1, [u], fst, lst⟩))
    (hc : sumPointsFor dbPicks K C = lbPoints dbLb K C) :
    sumPointsFor picks2 K C = lbPoints lb2 K C := by
  subst hp2
  have hsum := sumPointsFor_aset dbPicks (K0, u) pick
      ({ pick with pointsEarned := pick.pointsEarned + pts }) K C hpick
  by_cases hkc : K0 = K ∧ pick.creatorId = C
  · obtain ⟨hK, hC⟩ := hkc
    subst hK
    subst hC
    have hold : pickContrib (K0, u) pick K0 pick.creatorId = pick.pointsEarned := by
      simp [pickContrib]
    have hnew : pickContrib (K0, u)
        ({ pick with pointsEarned := pick.pointsEarned + pts }) K0 pick.creatorId
          = pick.pointsEarned + pts := by
      simp [pickContrib]
    rw [hold, hnew] at hsum
    rcases hlb2 with ⟨entry, e2, hsome, hset, htp⟩ | ⟨fst, lst, hnone, hset⟩
    · rw [hset, lbPoints_aset_self, htp]
      have hlbE : lbPoints dbLb K0 pick.creatorId = entry.totalPoints := by
        simp [lbPoints, hsome]
      rw [hlbE] at hc
      omega
    · rw [hset, lbPoints_aset_self]
      have hlb0 : lbPoints dbLb K0 pick.creatorId = 0 := by simp [lbPoints, hnone]
      rw [hlb0] at hc
      show _ = pts
      omega
  · have hold : pickContrib (K0, u) pick K C = 0 := by
      simp only [pickContrib, if_neg hkc]
    have hnew : pickContrib (K0, u)
        ({ pick with pointsEarned := pick.pointsEarned + pts }) K C = 0 := by
      have hkc2 : ¬(K0 = K ∧
          ({ pick with pointsEarned := pick.pointsEarned + pts } : CyclePick).creatorId = C) := by
        simpa using hkc
      simp only [pickContrib, if_neg hkc2]
    rw [hold, hnew] at hsum
    have hkey : (K0, pick.creatorId) ≠ (K, C) := by
      intro hE
      exact hkc ⟨congrArg Prod.fst hE, congrArg Prod.snd hE⟩
    rcases hlb2 with ⟨entry, e2, hsome, hset, htp⟩ | ⟨fst, lst, hnone, hset⟩ <;>
      rw [hset, lbPoints_aset_ne _ _ _ _ _ hkey] <;> omega

/-- `applyPityPoints` never changes the database: each precondition failure
throws before any write, and an execution whose preconditions all pass
throws inside the transaction (read after queued write), committing
nothing. -/
theorem applyPityPoints_state_id (db : DB) (auth : Option String)
    (prevK w : String) (now : Nat) (curK : String) :
    (applyPityPoints db auth prevK w now curK).db = db := by
  cases auth with
  | none => rfl
  | some u =>
    cases hpp : alookup db.pityPoints (prevK, u) with
    | none => simp [applyPityPoints, hpp, CallResult.db]
    | some pp =>
      by_cases hap : pp.appliedToNextCycle = true
      · simp [applyPityPoints, hpp, hap, CallResult.db]
      · cases hcp : alookup db.picks (curK, u) with
        | none => simp [applyPityPoints, hpp, hap, hcp, CallResult.db]
        | some cp => simp [applyPityPoints, hpp, hap, hcp, CallResult.db]

/-- C2: leaderboard conservation — for every cycle K and creator C, equality
of the summed `CyclePick.pointsEarned` with `LeaderboardEntry.totalPoints` is
preserved by every successful `submitGameResult` (its transactional commit),
by every non-throwing `clickWinnerLink`, and by `applyPityPoints` — the
latter vacuously, since its transaction body issues a read after a queued
write, which the Firestore SDK rejects, so it always throws and leaves the
database exactly as it was. -/
theorem leaderboard_conservation :
    (∀ db auth sid tT now K0 db2 r K C,
        submitGameResult db auth sid tT now K0 = CallResult.ok db2 r →
        sumPointsFor db.picks K C = lbPoints db.leaderboard K C →
        sumPointsFor db2.picks K C = lbPoints db2.leaderboard K C) ∧
    (∀ db auth cy url now db2 v K C,
        clickWinnerLink db auth cy url now = CallResult.ok db2 v →
        sumPointsFor db.picks K C = lbPoints db.leaderboard K C →
        sumPointsFor db2.picks K C = lbPoints db2.leaderboard K C) ∧
    (∀ db auth prevK w now curK,
        (applyPityPoints db auth prevK w now curK).db = db) ∧
    (∀ db auth prevK w now curK K C,
        sumPointsFor db.picks K C = lbPoints db.leaderboard K C →
        sumPointsFor (applyPityPoints db auth prevK w now curK).db.picks K C
          = lbPoints (applyPityPoints db auth prevK w now curK).db.leaderboard K C) := by
  refine ⟨?_, ?_, ?_, ?_⟩
  · intro db auth sid tT now K0 db2 r K C h hc
    obtain ⟨u, pts, pick, hauth, hpick, hr, hp2, hlb2⟩ :=
      submitGameResult_ok_shape db auth sid tT now K0 db2 r h
    refine conservation_step db.picks db.leaderboard K0 u pick pts
      db2.picks db2.leaderboard K C hpick hp2 ?_ hc
    rcases hlb2 with ⟨hnone, hset⟩ | ⟨entry, e2, hsome, hset, htp, _, _⟩
    · exact Or.inr ⟨now, now, hnone, hset⟩
    · exact Or.inl ⟨entry, e2, hsome, hset, htp⟩
  · intro db auth cy url now db2 v K C h hc
    rcases clickWinnerLink_ok_shape db auth cy url now db2 v h with
      hid | ⟨u, elig, pick, entry, hauth, he, hpick, hentry, hp2, hlb2⟩
    · rw [hid]
      exact hc
    · refine conservation_step db.picks db.leaderboard cy u pick 1
        db2.picks db2.leaderboard K C hpick hp2 ?_ hc
      exact Or.inl ⟨entry, _, hentry, hlb2, rfl⟩
  · intro db auth prevK w now curK
    exact applyPityPoints_state_id db auth prevK w now curK
  · intro db auth prevK w now curK K C hc
    rw [applyPityPoints_state_id db auth prevK w now curK]
    exact hc

/-- A state in which conservation holds for `("cycleK", "creatorC")` and a
`pityPoints` record exists for `("cyclePrev", "userU")`, so the redemption
passes its preconditions and reaches the doomed transaction. -/
def consDb : DB :=
  ⟨[], [(("cycleK", "userU"), ⟨"creatorC", 5⟩)],
    [(("cycleK", "creatorC"), ⟨"creatorC", 5, 1, ["userU"], 100, 100⟩)],
    [], [], [(("cyclePrev", "userU"), ⟨false, false, none⟩)], [], [], [], []⟩

/-- A state on which `submitGameResult` succeeds, used to witness
conservation preservation. -/
def wSubmitDb : DB :=
  ⟨[("sess1", ⟨"userU", "whackAMole", "easy", 0, false, 600000, 3⟩)],
    [(("cycleK", "userU"), ⟨"creatorC", 0⟩)],
    [], [("userU", ⟨none, none, none, 0, 0⟩)], [], [], [], [], [], []⟩

/-- The submission run on `wSubmitDb`. -/
def wSubmitRun : CallResult SubmitResult :=
  submitGameResult wSubmitDb (some "userU") "sess1" 0 10000 "cycleK"

/-- A state on which `clickWinnerLink` applies the pity point, used to witness
conservation preservation. -/
def wClickDb : DB :=
  ⟨[], [(("cycleK", "userU"), ⟨"creatorC", 5⟩)],
    [(("cycleK", "creatorC"), ⟨"creatorC", 5, 1, ["userU"], 100, 100⟩)],
    [], [(("cycleK", "userU"), ⟨"userU", true, false, "winnerW", "creatorC", none⟩)],
    [], [], [], [], []⟩

/-- The redemption run on `wClickDb`. -/
def wClickRun : CallResult ClickResult :=
  clickWinnerLink wClickDb (some "userU") "cycleK" "url" 20000

/-- Witness for C2: all four preservation statements applied at concrete
states — `consDb` passes every `applyPityPoints` precondition, so the state
identity there exercises the doomed-transaction path. -/
theorem leaderboard_conservation_witness :
    sumPointsFor wSubmitRun.db.picks "cycleK" "creatorC"
        = lbPoints wSubmitRun.db.leaderboard "cycleK" "creatorC" ∧
    sumPointsFor wClickRun.db.picks "cycleK" "creatorC"
        = lbPoints wClickRun.db.leaderboard "cycleK" "creatorC" ∧
    (applyPityPoints consDb (some "userU") "cyclePrev" "winnerW" 200 "cycleK").db
        = consDb ∧
    sumPointsFor (applyPityPoints consDb (some "userU") "cyclePrev" "winnerW" 200
          "cycleK").db.picks "cycleK" "creatorC"
        = lbPoints (applyPityPoints consDb (some "userU") "cyclePrev" "winnerW" 200
            "cycleK").db.leaderboard "cycleK" "creatorC" :=
  ⟨leaderboard_conservation.1 wSubmitDb (some "userU") "sess1" 0 10000
      "cycleK" wSubmitRun.db ⟨3, "creatorC"⟩ "cycleK" "creatorC" (by rfl) rfl,
    leaderboard_conservation.2.1 wClickDb (some "userU") "cycleK" "url" 20000
      wClickRun.db ⟨true, none, some 1⟩ "cycleK" "creatorC" (by rfl) rfl,
    leaderboard_conservation.2.2.1 consDb (some "userU") "cyclePrev" "winnerW" 200 "cycleK",
    leaderboard_conservation.2.2.2 consDb (some "userU") "cyclePrev" "winnerW" 200 "cycleK"
      "cycleK" "creatorC" rfl⟩

theorem beats_iff (a b : LeaderboardEntry) :
    beats a b = true ↔
      (b.totalPoints < a.totalPoints ∨
        (a.totalPoints = b.totalPoints ∧
          a.firstToReachCurrentScore < b.firstToReachCurrentScore)) := by
  simp [beats]

/-- The fold underlying `selectTop` returns one of the entries, maximal in
`totalPoints` and, among equal `totalPoints`, minimal in
`firstToReachCurrentScore`. -/
theorem foldl_pickBetter_spec (t : List LeaderboardEntry) :
    ∀ b : LeaderboardEntry,
      List.foldl pickBetter b t ∈ b :: t ∧
      ∀ e ∈ b :: t, e.totalPoints ≤ (List.foldl pickBetter b t).totalPoints ∧
        (e.totalPoints = (List.foldl pickBetter b t).totalPoints →
          (List.foldl pickBetter b t).firstToReachCurrentScore
            ≤ e.firstToReachCurrentScore) := by
  induction t with
  | nil =>
    intro b
    simp only [List.foldl_nil]
    refine ⟨List.mem_cons_self b [], ?_⟩
    intro e he
    rcases List.mem_cons.mp he with hEb | hF
    · subst hEb
      exact ⟨le_rfl, fun _ => le_rfl⟩
    · exact absurd hF (List.not_mem_nil e)
  | cons x t ih =>
    intro b
    simp only [List.foldl_cons]
    obtain ⟨hmem, hmax⟩ := ih (pickBetter b x)
    constructor
    · rcases List.mem_cons.mp hmem with hEq | hIn
      · by_cases hbx : beats x b = true
        · rw [hEq]
          simp [pickBetter, hbx]
        · rw [hEq]
          simp [pickBetter, hbx]
      · exact List.mem_cons_of_mem b (List.mem_cons_of_mem x hIn)
    · intro e he
      have hb2 := hmax (pickBetter b x) (List.mem_cons_self _ _)
      rcases List.mem_cons.mp he with hEb | he2
      · subst hEb
        by_cases hbx : beats x e = true
        · have hpb : pickBetter e x = x := if_pos hbx
          rw [hpb] at hb2 ⊢
          have hx := (beats_iff x e).mp hbx
          obtain ⟨h1, h2⟩ := hb2
          constructor
          · rcases hx with h | ⟨hEq, _⟩ <;> omega
          · intro hbe
            rcases hx with h | ⟨hEq, hLt⟩
            · omega
            · have h3 := h2 (by omega)
              omega
        · have hpb : pickBetter e x = e := if_neg hbx
          rw [hpb] at hb2 ⊢
          exact hb2
      · rcases List.mem_cons.mp he2 with hEx | heT
        · subst hEx
          by_cases hbx : beats e b = true
          · have hpb : pickBetter b e = e := if_pos hbx
            rw [hpb] at hb2 ⊢
            exact hb2
          · have hpb : pickBetter b e = b := if_neg hbx
            rw [hpb] at hb2 ⊢
            have hnx : ¬(b.totalPoints < e.totalPoints ∨
                (e.totalPoints = b.totalPoints ∧
                  e.firstToReachCurrentScore < b.firstToReachCurrentScore)) := by
              rw [← beats_iff]
              exact hbx
            push_neg at hnx
            obtain ⟨h1, h2⟩ := hb2
            obtain ⟨h3, h4⟩ := hnx
            constructor
            · omega
            · intro hxe
              have h5 := h2 (by omega)
              have h6 := h4 (by omega)
              omega
        · exact hmax e (List.mem_cons_of_mem _ heT)

/-- `selectTop` returns a member that is maximal in `totalPoints`, with the
earliest `firstToReachCurrentScore` among ties. -/
theorem selectTop_spec (l : List LeaderboardEntry) (w : LeaderboardEntry)
    (h : selectTop l = some w) :
    w ∈ l ∧ ∀ e ∈ l, e.totalPoints ≤ w.totalPoints ∧
      (e.totalPoints = w.totalPoints →
        w.firstToReachCurrentScore ≤ e.firstToReachCurrentScore) := by
  cases l with
  | nil => exact Option.noConfusion h
  | cons a t =>
    simp only [selectTop, Option.some.injEq] at h
    subst h
    exact foldl_pickBetter_spec t a

/-- C5: settlement selects the leaderboard entry with maximum `totalPoints`,
breaking ties by earliest `firstToReachCurrentScore`, and writes a
`cycleWinners` record keyed by the cycle id whose `finalScore` and
`supporterCount` equal the selected entry's values; with no entries it
reports no-entries and performs no write. -/
theorem calculateWinner_spec :
    (∀ db K now, entriesFor db K = [] →
        calculateWinnerForCycle db K now = CallResult.ok db SettleResult.noEntries) ∧
    (∀ db K now w profile, selectTop (entriesFor db K) = some w →
        alookup db.users w.creatorId = some profile →
        w ∈ entriesFor db K ∧
        (∀ e ∈ entriesFor db K, e.totalPoints ≤ w.totalPoints ∧
          (e.totalPoints = w.totalPoints →
            w.firstToReachCurrentScore ≤ e.firstToReachCurrentScore)) ∧
        ∃ db2, calculateWinnerForCycle db K now
            = CallResult.ok db2
                (SettleResult.winner w.creatorId (profile.displayName.getD "Unknown")) ∧
          alookup db2.cycleWinners K = some (winnerRecordOf w profile K now) ∧
          (winnerRecordOf w profile K now).finalScore = w.totalPoints ∧
          (winnerRecordOf w profile K now).supporterCount = w.supporterCount) := by
  constructor
  · intro db K now h
    simp [calculateWinnerForCycle, h, selectTop]
  · intro db K now w profile hsel hprof
    obtain ⟨hmem, hmax⟩ := selectTop_spec _ _ hsel
    refine ⟨hmem, hmax,
      { db with cycleWinners := aset db.cycleWinners K (winnerRecordOf w profile K now) },
      ?_, ?_, rfl, rfl⟩
    · simp only [calculateWinnerForCycle, hsel, hprof]
    · exact alookup_aset_self db.cycleWinners K (winnerRecordOf w profile K now)

/-- The empty database. -/
def emptyDb : DB := ⟨[], [], [], [], [], [], [], [], [], []⟩

/-- Leaderboard entry of creatorA: 7 points, reached later. -/
def tieEntryA : LeaderboardEntry := ⟨"creatorA", 7, 2, ["u1", "u2"], 300, 400⟩

/-- Leaderboard entry of creatorB: 7 points, reached earlier. -/
def tieEntryB : LeaderboardEntry := ⟨"creatorB", 7, 1, ["u3"], 250, 260⟩

/-- Profile of creatorB. -/
def tieProfileB : UserProfile := ⟨some "NameB", none, none, 0, 0⟩

/-- Two entries tied on `totalPoints`; `creatorB` reached the score earlier. -/
def tieDb : DB :=
  ⟨[], [], [(("cycleK", "creatorA"), tieEntryA), (("cycleK", "creatorB"), tieEntryB)],
    [("creatorB", tieProfileB)], [], [], [], [], [], []⟩

/-- Witness for C5: no-entries on the empty state; on the tied state the
entry with the earlier `firstToReachCurrentScore` is selected and written. -/
theorem calculateWinner_spec_witness :
    calculateWinnerForCycle emptyDb "cycleK" 500
        = CallResult.ok emptyDb SettleResult.noEntries ∧
    tieEntryB ∈ entriesFor tieDb "cycleK" ∧
    ∃ db2, calculateWinnerForCycle tieDb "cycleK" 500
        = CallResult.ok db2
            (SettleResult.winner tieEntryB.creatorId (tieProfileB.displayName.getD "Unknown")) ∧
      alookup db2.cycleWinners "cycleK" = some (winnerRecordOf tieEntryB tieProfileB "cycleK" 500) ∧
      (winnerRecordOf tieEntryB tieProfileB "cycleK" 500).finalScore = tieEntryB.totalPoints ∧
      (winnerRecordOf tieEntryB tieProfileB "cycleK" 500).supporterCount
        = tieEntryB.supporterCount := by
  have h2 := calculateWinner_spec.2 tieDb "cycleK" 500 tieEntryB tieProfileB (by rfl) (by rfl)
  exact ⟨calculateWinner_spec.1 emptyDb "cycleK" 500 rfl, h2.1, h2.2.2⟩

/-- C6 (amended): settlement is not write-once — `manualCalculateWinner` is a
plain replay of `calculateWinnerForCycle`, and whenever entries exist (and the
winner has a profile) settlement unconditionally overwrites the cycle's
`cycleWinners` record with values freshly computed from the current
leaderboard and clock, whatever record was there before. -/
theorem settlement_overwrites_winner :
    (∀ db cycleIdArg defK now,
        manualCalculateWinner db cycleIdArg defK now
          = calculateWinnerForCycle db (cycleIdArg.getD defK) now) ∧
    (∀ db K now w profile, selectTop (entriesFor db K) = some w →
        alookup db.users w.creatorId = some profile →
        ∃ db2 r, calculateWinnerForCycle db K now = CallResult.ok db2 r ∧
          alookup db2.cycleWinners K = some (winnerRecordOf w profile K now)) := by
  constructor
  · intro db a d now
    rfl
  · intro db K now w profile hsel hprof
    refine ⟨{ db with cycleWinners := aset db.cycleWinners K (winnerRecordOf w profile K now) },
      SettleResult.winner w.creatorId (profile.displayName.getD "Unknown"), ?_, ?_⟩
    · simp only [calculateWinnerForCycle, hsel, hprof]
    · exact alookup_aset_self db.cycleWinners K (winnerRecordOf w profile K now)

/-- A previously settled winner record with finalScore 5. -/
def rerunOld : CycleWinner := ⟨"oldWinner", "Old", "", "", 5, 1, 10, 100, "cycleK", 100⟩

/-- The current leaderboard top of the already-settled cycle. -/
def rerunEntry : LeaderboardEntry := ⟨"creatorC", 7, 1, ["u1"], 50, 60⟩

/-- Profile of `creatorC`. -/
def rerunProfile : UserProfile := ⟨some "CName", none, none, 0, 0⟩

/-- A state whose cycle `cycleK` was already settled (record `rerunOld`). -/
def rerunDb : DB :=
  ⟨[], [], [(("cycleK", "creatorC"), rerunEntry)], [("creatorC", rerunProfile)],
    [], [], [], [("cycleK", rerunOld)], [], []⟩

/-- C6 counterexample: re-running settlement for the already settled cycle
`cycleK` replaces the existing `cycleWinners` record (`finalScore` 5 becomes
7) instead of leaving it unchanged. -/
theorem settlement_overwrite_cex :
    alookup rerunDb.cycleWinners "cycleK" = some rerunOld ∧
    (manualCalculateWinner rerunDb (some "cycleK") "cycleDefault" 200).errCode = none ∧
    (alookup (manualCalculateWinner rerunDb (some "cycleK") "cycleDefault" 200).db.cycleWinners
        "cycleK").map (fun r => r.finalScore) = some 7 ∧
    alookup (manualCalculateWinner rerunDb (some "cycleK") "cycleDefault" 200).db.cycleWinners
        "cycleK" ≠ some rerunOld := by
  refine ⟨rfl, rfl, rfl, ?_⟩
  decide

/-- Witness for C6: the amended statement applied at the settled state. -/
theorem settlement_overwrites_winner_witness :
    manualCalculateWinner rerunDb (some "cycleK") "cycleDefault" 200
        = calculateWinnerForCycle rerunDb "cycleK" 200 ∧
    ∃ db2 r, calculateWinnerForCycle rerunDb "cycleK" 200 = CallResult.ok db2 r ∧
      alookup db2.cycleWinners "cycleK"
        = some (winnerRecordOf rerunEntry rerunProfile "cycleK" 200) :=
  ⟨settlement_overwrites_winner.1 rerunDb (some "cycleK") "cycleDefault" 200,
    settlement_overwrites_winner.2 rerunDb "cycleK" 200 rerunEntry rerunProfile
      (by rfl) (by rfl)⟩

/-- A state ready for one submission: a fresh `whackAMole` session started at
t=0, a pick and a user profile, no leaderboard entry yet. -/
def timingDb : DB :=
  ⟨[("sessT", ⟨"userU", "whackAMole", "easy", 0, false, 600000, 3⟩)],
    [(("cycleK", "userU"), ⟨"creatorC", 0⟩)], [],
    [("userU", ⟨none, none, none, 0, 0⟩)], [], [], [], [], [], []⟩

/-- C3: the timing gate for `whackAMole` (min 3 s, max 120 s, 3 points) is
inclusive — a server-measured elapsed time of 2.9 s is rejected as too fast,
3.0 s and 120.0 s are accepted (awarding 3 points), 120.1 s is rejected as
too slow — and the outcome is the same for every client-supplied `timeTaken`,
which is only logged, never scored. -/
theorem timing_gate_bounds :
    GAME_VALIDATION "whackAMole" = some ⟨3000, 120000, 3⟩ ∧
    (∀ tT : Int, (submitGameResult timingDb (some "userU") "sessT" tT 2900 "cycleK").errCode
        = some ErrCode.failedPrecondition) ∧
    (∀ tT : Int, (submitGameResult timingDb (some "userU") "sessT" tT 3000 "cycleK").value
        = some ⟨3, "creatorC"⟩) ∧
    (∀ tT : Int, (submitGameResult timingDb (some "userU") "sessT" tT 120000 "cycleK").value
        = some ⟨3, "creatorC"⟩) ∧
    (∀ tT : Int, (submitGameResult timingDb (some "userU") "sessT" tT 120100 "cycleK").errCode
        = some ErrCode.deadlineExceeded) :=
  ⟨rfl, fun _ => rfl, fun _ => rfl, fun _ => rfl, fun _ => rfl⟩

/-- The session both racing invocations of `submitGameResult` read before
either has marked it used. -/
def raceSession : GameSession := ⟨"userU", "whackAMole", "easy", 0, false, 600000, 3⟩

/-- Initial state of the race. -/
def raceDb0 : DB :=
  ⟨[("sessR", raceSession)], [(("cycleK", "userU"), ⟨"creatorC", 0⟩)], [],
    [("userU", ⟨none, none, none, 0, 0⟩)], [], [], [], [], [], []⟩

/-- State after invocation A's rate-limit write. -/
def raceDb1 : DB := (checkRateLimit raceDb0 "userU" "submitGameResult" 30 60 10000).db

/-- State after invocation B's rate-limit write; both session reads happen
here, before either invocation writes `used`. -/
def raceDb2 : DB := (checkRateLimit raceDb1 "userU" "submitGameResult" 30 60 10000).db

/-- Invocation A completes against its session snapshot. -/
def raceRunA : CallResult SubmitResult :=
  submitAfterSessionRead raceDb2 "userU" "sessR" raceSession 9000 10000 "cycleK"

/-- Invocation B then completes against the same (stale) session snapshot,
which still has `used = false`. -/
def raceRunB : CallResult SubmitResult :=
  submitAfterSessionRead raceRunA.db "userU" "sessR" raceSession 9000 10000 "cycleK"

/-- C1: because the `used` check and the `used := true` write are not atomic
(the session is marked used outside the points transaction), an interleaving
in which both invocations read the session before either marks it used lets
both award points — the leaderboard gains 6 points from one single-use
session — while a later sequential call does fail with AlreadyUsed. -/
theorem submit_used_flag_race :
    alookup raceDb2.gameSessions "sessR" = some raceSession ∧
    raceSession.used = false ∧
    raceRunA.value = some ⟨3, "creatorC"⟩ ∧
    raceRunB.value = some ⟨3, "creatorC"⟩ ∧
    lbPoints raceRunB.db.leaderboard "cycleK" "creatorC" = 6 ∧
    (alookup raceRunB.db.picks ("cycleK", "userU")).map (fun p => p.pointsEarned) = some 6 ∧
    (submitGameResult raceRunB.db (some "userU") "sessR" 9000 10000 "cycleK").errCode
      = some ErrCode.alreadyExists :=
  ⟨rfl, rfl, rfl, rfl, rfl, rfl, rfl⟩

/-- Eligibility record of the settled cycle `cyclePrevK`. -/
def settledElig : PityEligibility := ⟨"userU", true, false, "winnerW", "creatorC", none⟩

/-- A state with a settled cycle `cyclePrevK` (user picked `creatorC` there)
and a current cycle `cycleCurK` (user now picks `creatorD`). -/
def settledDb : DB :=
  ⟨[],
    [(("cyclePrevK", "userU"), ⟨"creatorC", 5⟩), (("cycleCurK", "userU"), ⟨"creatorD", 2⟩)],
    [(("cyclePrevK", "creatorC"), ⟨"creatorC", 10, 1, ["userU"], 100, 100⟩),
      (("cycleCurK", "creatorD"), ⟨"creatorD", 2, 1, ["userU"], 150, 150⟩)],
    [], [(("cyclePrevK", "userU"), settledElig)], [], [], [], [], []⟩

/-- The redemption run, invoked — as the UI does — with the settled cycle id. -/
def settledRun : CallResult ClickResult :=
  clickWinnerLink settledDb (some "userU") "cyclePrevK" "url" 999

/-- Same state but without a pick in the settled cycle (only a current-cycle
pick exists). -/
def noPrevPickDb : DB :=
  ⟨[], [(("cycleCurK", "userU"), ⟨"creatorD", 2⟩)],
    [(("cycleCurK", "creatorD"), ⟨"creatorD", 2, 1, ["userU"], 150, 150⟩)],
    [], [(("cyclePrevK", "userU"), settledElig)], [], [], [], [], []⟩

/-- C4: `clickWinnerLink` resolves the pick and the leaderboard entry under
the settled cycle id it is called with, not under the current cycle: the
bonus point lands on `cyclePrevK`/`creatorC` while the current cycle's
entries stay untouched, and a user whose only pick is in the current cycle
gets no point at all. -/
theorem click_targets_settled_cycle :
    settledRun.value = some ⟨true, none, some 1⟩ ∧
    lbPoints settledRun.db.leaderboard "cyclePrevK" "creatorC" = 11 ∧
    lbPoints settledRun.db.leaderboard "cycleCurK" "creatorD" = 2 ∧
    (alookup settledRun.db.picks ("cyclePrevK", "userU")).map (fun p => p.pointsEarned)
        = some 6 ∧
    (alookup settledRun.db.picks ("cycleCurK", "userU")).map (fun p => p.pointsEarned)
        = some 2 ∧
    (alookup settledRun.db.pityPointsEligible ("cyclePrevK", "userU")).map
        (fun e => e.clickedWinnerLink) = some true ∧
    clickWinnerLink noPrevPickDb (some "userU") "cyclePrevK" "url" 999
      = CallResult.ok noPrevPickDb ⟨false, some "No creator pick found", none⟩ :=
  ⟨rfl, rfl, rfl, rfl, rfl, rfl, rfl⟩

/-- C7: pity redemption is idempotent — with all preconditions met the first
`clickWinnerLink` applies exactly one bonus point and the second call is a
no-op returning `pityPointApplied: false` — and every failed precondition
(no eligibility record, not eligible, already clicked, no creator pick)
yields a non-error not-applicable result with the state unchanged. -/
theorem click_idempotent_nonthrowing :
    (∀ db u K url now now2 elig pick entry,
        alookup db.pityPointsEligible (K, u) = some elig →
        elig.eligibleForPityPoint = true →
        elig.clickedWinnerLink = false →
        alookup db.picks (K, u) = some pick →
        alookup db.leaderboard (K, pick.creatorId) = some entry →
        ∃ db2, clickWinnerLink db (some u) K url now
            = CallResult.ok db2 ⟨true, none, some 1⟩ ∧
          clickWinnerLink db2 (some u) K url now2
            = CallResult.ok db2 ⟨false, some "Already claimed pity point", none⟩ ∧
          lbPoints db2.leaderboard K pick.creatorId = entry.totalPoints + 1 ∧
          alookup db2.picks (K, u)
            = some ({ pick with pointsEarned := pick.pointsEarned + 1 })) ∧
    (∀ db u K url now, alookup db.pityPointsEligible (K, u) = none →
        clickWinnerLink db (some u) K url now
          = CallResult.ok db ⟨false, some "Not eligible for pity point", none⟩) ∧
    (∀ db u K url now elig, alookup db.pityPointsEligible (K, u) = some elig →
        elig.eligibleForPityPoint = false →
        clickWinnerLink db (some u) K url now
          = CallResult.ok db ⟨false, some "Not eligible for pity point", none⟩) ∧
    (∀ db u K url now elig, alookup db.pityPointsEligible (K, u) = some elig →
        elig.eligibleForPityPoint = true →
        elig.clickedWinnerLink = true →
        clickWinnerLink db (some u) K url now
          = CallResult.ok db ⟨false, some "Already claimed pity point", none⟩) ∧
    (∀ db u K url now elig, alookup db.pityPointsEligible (K, u) = some elig →
        elig.eligibleForPityPoint = true →
        elig.clickedWinnerLink = false →
        alookup db.picks (K, u) = none →
        clickWinnerLink db (some u) K url now
          = CallResult.ok db ⟨false, some "No creator pick found", none⟩) := by
  refine ⟨?_, ?_, ?_, ?_, ?_⟩
  · intro db u K url now now2 elig pick entry he h1 h2 hp hl
    refine ⟨{ db with
        leaderboard := aset db.leaderboard (K, pick.creatorId)
          ({ entry with totalPoints := entry.totalPoints + 1 }),
        picks := aset db.picks (K, u)
          ({ pick with pointsEarned := pick.pointsEarned + 1 }),
        pityPointsEligible := aset db.pityPointsEligible (K, u)
          ({ elig with clickedWinnerLink := true, clickedAt := some now }) },
      ?_, ?_, ?_, ?_⟩
    · simp [clickWinnerLink, he, h1, h2, hp, hl]
    · simp [clickWinnerLink, alookup_aset_self, h1]
    · exact lbPoints_aset_self _ _ _ _
    · exact alookup_aset_self _ _ _
  · intro db u K url now he
    simp [clickWinnerLink, he]
  · intro db u K url now elig he h1
    simp [clickWinnerLink, he, h1]
  · intro db u K url now elig he h1 h2
    simp [clickWinnerLink, he, h1, h2]
  · intro db u K url now elig he h1 h2 hp
    simp [clickWinnerLink, he, h1, h2, hp]

/-- State meeting all pity-redemption preconditions. -/
def c7Db : DB :=
  ⟨[], [(("cycleK", "userV"), ⟨"creatorC", 4⟩)],
    [(("cycleK", "creatorC"), ⟨"creatorC", 9, 1, ["userV"], 70, 70⟩)], [],
    [(("cycleK", "userV"), ⟨"userV", true, false, "winnerW", "creatorC", none⟩)],
    [], [], [], [], []⟩

/-- State whose eligibility record says not eligible. -/
def c7NotElig : DB :=
  ⟨[], [], [], [],
    [(("cycleK", "userV"), ⟨"userV", false, false, "winnerW", "creatorC", none⟩)],
    [], [], [], [], []⟩

/-- State whose eligibility was already claimed. -/
def c7Clicked : DB :=
  ⟨[], [], [], [],
    [(("cycleK", "userV"), ⟨"userV", true, true, "winnerW", "creatorC", some 5⟩)],
    [], [], [], [], []⟩

/-- Eligible state without a creator pick. -/
def c7NoPick : DB :=
  ⟨[], [], [], [],
    [(("cycleK", "userV"), ⟨"userV", true, false, "winnerW", "creatorC", none⟩)],
    [], [], [], [], []⟩

/-- Witness for C7: every part applied at a concrete state. -/
theorem click_idempotent_nonthrowing_witness :
    (∃ db2, clickWinnerLink c7Db (some "userV") "cycleK" "url" 111
        = CallResult.ok db2 ⟨true, none, some 1⟩ ∧
      clickWinnerLink db2 (some "userV") "cycleK" "url" 222
        = CallResult.ok db2 ⟨false, some "Already claimed pity point", none⟩ ∧
      lbPoints db2.leaderboard "cycleK" "creatorC" = 10 ∧
      alookup db2.picks ("cycleK", "userV") = some ⟨"creatorC", 5⟩) ∧
    clickWinnerLink emptyDb (some "userV") "cycleK" "url" 111
      = CallResult.ok emptyDb ⟨false, some "Not eligible for pity point", none⟩ ∧
    clickWinnerLink c7NotElig (some "userV") "cycleK" "url" 111
      = CallResult.ok c7NotElig ⟨false, some "Not eligible for pity point", none⟩ ∧
    clickWinnerLink c7Clicked (some "userV") "cycleK" "url" 111
      = CallResult.ok c7Clicked ⟨false, some "Already claimed pity point", none⟩ ∧
    clickWinnerLink c7NoPick (some "userV") "cycleK" "url" 111
      = CallResult.ok c7NoPick ⟨false, some "No creator pick found", none⟩ :=
  ⟨click_idempotent_nonthrowing.1 c7Db "userV" "cycleK" "url" 111 222
      ⟨"userV", true, false, "winnerW", "creatorC", none⟩ ⟨"creatorC", 4⟩
      ⟨"creatorC", 9, 1, ["userV"], 70, 70⟩ rfl rfl rfl rfl rfl,
    click_idempotent_nonthrowing.2.1 emptyDb "userV" "cycleK" "url" 111 rfl,
    click_idempotent_nonthrowing.2.2.1 c7NotElig "userV" "cycleK" "url" 111
      ⟨"userV", false, false, "winnerW", "creatorC", none⟩ rfl rfl,
    click_idempotent_nonthrowing.2.2.2.1 c7Clicked "userV" "cycleK" "url" 111
      ⟨"userV", true, true, "winnerW", "creatorC", some 5⟩ rfl rfl rfl,
    click_idempotent_nonthrowing.2.2.2.2 c7NoPick "userV" "cycleK" "url" 111
      ⟨"userV", true, false, "winnerW", "creatorC", none⟩ rfl rfl rfl rfl⟩

/-- A burst of back-to-back calls to `checkRateLimit` by the same actor for
the same action, all at time `now`, stopping at the first thrown error. -/
def repeatCheck (u a : String) (maxR winM now : Nat) : Nat → DB → CallResult Unit
  | 0, db => .ok db ()
  | n + 1, db =>
    match checkRateLimit db u a maxR winM now with
    | .ok db2 _ => repeatCheck u a maxR winM now n db2
    | .err db2 e => .err db2 e

/-- Within an unexpired window, a burst starting from count `c` raises the
count by the number of calls, as long as the ceiling is not passed. -/
theorem repeatCheck_from (db : DB) (u a : String) (maxR winM now : Nat) :
    ∀ k c, 1 ≤ winM → c + k ≤ maxR →
      repeatCheck u a maxR winM now k
          { db with rateLimits := aset db.rateLimits (u ++ "_" ++ a) ⟨now, c, now⟩ }
        = CallResult.ok
            { db with rateLimits := aset db.rateLimits (u ++ "_" ++ a) ⟨now, c + k, now⟩ } () := by
  intro k
  induction k with
  | zero =>
    intro c h1 h2
    simp [repeatCheck]
  | succ n ih =>
    intro c h1 h2
    have hlook : alookup (aset db.rateLimits (u ++ "_" ++ a) ⟨now, c, now⟩) (u ++ "_" ++ a)
        = some ⟨now, c, now⟩ := alookup_aset_self _ _ _
    have hwin : now - now < winM * 60 * 1000 := by omega
    have hcnt : ¬(maxR ≤ c) := by omega
    have hstep : checkRateLimit
          { db with rateLimits := aset db.rateLimits (u ++ "_" ++ a) ⟨now, c, now⟩ }
          u a maxR winM now
        = CallResult.ok
            { db with rateLimits := aset db.rateLimits (u ++ "_" ++ a) ⟨now, c + 1, now⟩ } () := by
      simp only [checkRateLimit, hlook, if_pos hwin, if_neg hcnt]
      rw [aset_aset_self]
    rw [repeatCheck, hstep]
    have hrec := ih (c + 1) h1 (by omega)
    have harith : c + 1 + n = c + (n + 1) := by omega
    rw [harith] at hrec
    exact hrec

/-- C8: on a missing or expired window the rate limiter starts a fresh window
with count 1 and succeeds; within an unexpired window a call below the
ceiling succeeds and increments the count, and once the count has reached the
ceiling every call fails with a `resource-exhausted` error carrying the
estimated retry-after; consequently the first N calls of a burst succeed. -/
theorem rate_limiter_spec :
    (∀ db u a maxR winM now, alookup db.rateLimits (u ++ "_" ++ a) = none →
        checkRateLimit db u a maxR winM now
          = CallResult.ok
              { db with rateLimits := aset db.rateLimits (u ++ "_" ++ a) ⟨now, 1, now⟩ } ()) ∧
    (∀ db u a maxR winM now data, alookup db.rateLimits (u ++ "_" ++ a) = some data →
        winM * 60 * 1000 ≤ now - data.windowStart →
        checkRateLimit db u a maxR winM now
          = CallResult.ok
              { db with rateLimits := aset db.rateLimits (u ++ "_" ++ a) ⟨now, 1, now⟩ } ()) ∧
    (∀ db u a maxR winM now data, alookup db.rateLimits (u ++ "_" ++ a) = some data →
        now - data.windowStart < winM * 60 * 1000 →
        data.requestCount < maxR →
        checkRateLimit db u a maxR winM now
          = CallResult.ok
              { db with rateLimits :=
                            aset db.rateLimits (u ++ "_" ++ a)
                              ({ data with requestCount := data.requestCount + 1,
                                           lastRequest := now }) } ()) ∧
    (∀ db u a maxR winM now data, alookup db.rateLimits (u ++ "_" ++ a) = some data →
        now - data.windowStart < winM * 60 * 1000 →
        maxR ≤ data.requestCount →
        checkRateLimit db u a maxR winM now
          = CallResult.err db (rateLimitError (winM * 60 * 1000) (now - data.windowStart))) ∧
    (∀ db u a maxR winM now k, 1 ≤ winM → 1 ≤ k → k ≤ maxR →
        alookup db.rateLimits (u ++ "_" ++ a) = none →
        repeatCheck u a maxR winM now k db
          = CallResult.ok
              { db with rateLimits := aset db.rateLimits (u ++ "_" ++ a) ⟨now, k, now⟩ } ()) := by
  refine ⟨?_, ?_, ?_, ?_, ?_⟩
  · intro db u a maxR winM now h
    simp [checkRateLimit, h]
  · intro db u a maxR winM now data h hexp
    have : ¬(now - data.windowStart < winM * 60 * 1000) := by omega
    simp [checkRateLimit, h, this]
  · intro db u a maxR winM now data h hwin hcnt
    have : ¬(maxR ≤ data.requestCount) := by omega
    simp [checkRateLimit, h, if_pos hwin, this]
  · intro db u a maxR winM now data h hwin hcnt
    simp [checkRateLimit, h, if_pos hwin, hcnt]
  · intro db u a maxR winM now k h1 hk1 hkm h
    cases k with
    | zero => omega
    | succ j =>
      have hstep : checkRateLimit db u a maxR winM now
          = CallResult.ok
              { db with rateLimits := aset db.rateLimits (u ++ "_" ++ a) ⟨now, 1, now⟩ } () := by
        simp [checkRateLimit, h]
      rw [repeatCheck, hstep]
      have hrec := repeatCheck_from db u a maxR winM now j 1 h1 (by omega)
      have harith : 1 + j = j + 1 := by omega
      rw [harith] at hrec
      exact hrec

/-- An unexpired window with count 3 started at t=0 by actor `u`, action `act`. -/
def rlDb : DB := ⟨[], [], [], [], [], [], [], [], [("u_act", ⟨0, 3, 0⟩)], []⟩

/-- Witness for C8: all five parts applied at concrete states. -/
theorem rate_limiter_spec_witness :
    checkRateLimit emptyDb "u" "act" 5 10 1000
        = CallResult.ok
            { emptyDb with rateLimits :=
                                aset emptyDb.rateLimits ("u" ++ "_" ++ "act") ⟨1000, 1, 1000⟩ } () ∧
    checkRateLimit rlDb "u" "act" 5 10 700000
        = CallResult.ok
            { rlDb with rateLimits :=
                             aset rlDb.rateLimits ("u" ++ "_" ++ "act") ⟨700000, 1, 700000⟩ } () ∧
    checkRateLimit rlDb "u" "act" 5 10 1000
        = CallResult.ok
            { rlDb with rateLimits :=
                             aset rlDb.rateLimits ("u" ++ "_" ++ "act")
                               ({ (⟨0, 3, 0⟩ : RateLimitRec) with requestCount := 3 + 1,
                                                                  lastRequest := 1000 }) } () ∧
    checkRateLimit rlDb "u" "act" 3 10 1000
        = CallResult.err rlDb (rateLimitError (10 * 60 * 1000) (1000 - 0)) ∧
    repeatCheck "u" "act" 5 10 1000 3 emptyDb
        = CallResult.ok
            { emptyDb with rateLimits :=
                                aset emptyDb.rateLimits ("u" ++ "_" ++ "act") ⟨1000, 3, 1000⟩ } () :=
  ⟨rate_limiter_spec.1 emptyDb "u" "act" 5 10 1000 rfl,
    rate_limiter_spec.2.1 rlDb "u" "act" 5 10 700000 ⟨0, 3, 0⟩ (by rfl) (by decide),
    rate_limiter_spec.2.2.1 rlDb "u" "act" 5 10 1000 ⟨0, 3, 0⟩ (by rfl) (by decide) (by decide),
    rate_limiter_spec.2.2.2.1 rlDb "u" "act" 3 10 1000 ⟨0, 3, 0⟩ (by rfl) (by decide) (by decide),
    rate_limiter_spec.2.2.2.2 emptyDb "u" "act" 5 10 1000 3 (by decide) (by decide) (by decide) rfl⟩

/-- C9 (amended): a point award sets `firstToReachCurrentScore` to the award
time only when it creates the leaderboard entry; awards to an existing entry
change `totalPoints` but leave `firstToReachCurrentScore` untouched, so the
field records the first score change, not the most recent one. -/
theorem firstToReach_set_on_creation_only :
    (∀ db auth sid tT now K0 db2 r,
        submitGameResult db auth sid tT now K0 = CallResult.ok db2 r →
        alookup db.leaderboard (K0, r.creatorId) = none →
        ∃ e2, alookup db2.leaderboard (K0, r.creatorId) = some e2 ∧
          e2.firstToReachCurrentScore = now ∧ e2.totalPoints = r.pointsAwarded) ∧
    (∀ db auth sid tT now K0 db2 r e,
        submitGameResult db auth sid tT now K0 = CallResult.ok db2 r →
        alookup db.leaderboard (K0, r.creatorId) = some e →
        ∃ e2, alookup db2.leaderboard (K0, r.creatorId) = some e2 ∧
          e2.firstToReachCurrentScore = e.firstToReachCurrentScore ∧
          e2.totalPoints = e.totalPoints + r.pointsAwarded) := by
  constructor
  · intro db auth sid tT now K0 db2 r h hnone
    obtain ⟨u, pts, pick, hauth, hpick, hr, hp2, hlb2⟩ :=
      submitGameResult_ok_shape db auth sid tT now K0 db2 r h
    subst hr
    rcases hlb2 with ⟨hnone2, hset⟩ | ⟨entry, e2, hsome, hset, _, _, _⟩
    · refine ⟨⟨pick.creatorId, pts, 1, [u], now, now⟩, ?_, rfl, rfl⟩
      rw [hset]
      exact alookup_aset_self _ _ _
    · rw [hsome] at hnone
      exact Option.noConfusion hnone
  · intro db auth sid tT now K0 db2 r e h hsomeE
    obtain ⟨u, pts, pick, hauth, hpick, hr, hp2, hlb2⟩ :=
      submitGameResult_ok_shape db auth sid tT now K0 db2 r h
    subst hr
    rcases hlb2 with ⟨hnone2, hset⟩ | ⟨entry, e2, hsome, hset, htp, hfst, _⟩
    · rw [hnone2] at hsomeE
      exact Option.noConfusion hsomeE
    · rw [hsome] at hsomeE
      obtain hEe := Option.some.inj hsomeE
      subst hEe
      refine ⟨e2, ?_, hfst, htp⟩
      rw [hset]
      exact alookup_aset_self _ _ _

/-- Two fresh sessions for the same user, pick and cycle. -/
def c9Db : DB :=
  ⟨[("sessOne", ⟨"userU", "whackAMole", "easy", 0, false, 1000000000, 3⟩),
      ("sessTwo", ⟨"userU", "whackAMole", "easy", 0, false, 1000000000, 3⟩)],
    [(("cycleK", "userU"), ⟨"creatorC", 0⟩)], [],
    [("userU", ⟨none, none, none, 0, 0⟩)], [], [], [], [], [], []⟩

/-- State after the first award, at t=10000. -/
def c9Db1 : DB := (submitGameResult c9Db (some "userU") "sessOne" 0 10000 "cycleK").db

/-- State after the second award, at t=20000. -/
def c9Db2 : DB := (submitGameResult c9Db1 (some "userU") "sessTwo" 0 20000 "cycleK").db

/-- C9 counterexample: the second award changes the score at t=20000
(`lastUpdated` becomes 20000) but `firstToReachCurrentScore` stays 10000, so
the field does not equal the time of the latest score change. -/
theorem firstToReach_stale_cex :
    (alookup c9Db1.leaderboard ("cycleK", "creatorC")).map
        (fun e => (e.totalPoints, e.firstToReachCurrentScore)) = some (3, 10000) ∧
    (alookup c9Db2.leaderboard ("cycleK", "creatorC")).map
        (fun e => (e.totalPoints, e.firstToReachCurrentScore)) = some (6, 10000) ∧
    (alookup c9Db2.leaderboard ("cycleK", "creatorC")).map (fun e => e.lastUpdated)
        = some 20000 ∧
    (alookup c9Db2.leaderboard ("cycleK", "creatorC")).map (fun e => e.firstToReachCurrentScore)
        ≠ (alookup c9Db2.leaderboard ("cycleK", "creatorC")).map (fun e => e.lastUpdated) :=
  ⟨rfl, rfl, rfl, by decide⟩

/-- Witness for C9: creation sets the field at t=10000; the second award at
t=20000 preserves it. -/
theorem firstToReach_set_on_creation_only_witness :
    (∃ e2, alookup c9Db1.leaderboard ("cycleK", "creatorC") = some e2 ∧
      e2.firstToReachCurrentScore = 10000 ∧ e2.totalPoints = 3) ∧
    (∃ e2, alookup c9Db2.leaderboard ("cycleK", "creatorC") = some e2 ∧
      e2.firstToReachCurrentScore = 10000 ∧ e2.totalPoints = 3 + 3) :=
  ⟨firstToReach_set_on_creation_only.1 c9Db (some "userU") "sessOne" 0 10000 "cycleK"
      c9Db1 ⟨3, "creatorC"⟩ (by rfl) rfl,
    firstToReach_set_on_creation_only.2 c9Db1 (some "userU") "sessTwo" 0 20000 "cycleK"
      c9Db2 ⟨3, "creatorC"⟩ ⟨"creatorC", 3, 1, ["userU"], 10000, 10000⟩ (by rfl) (by rfl)⟩

/-- C10: `applyPityPoints` reads eligibility from the `pityPoints`
subcollection; with no record there it throws NotFound and writes nothing,
and neither `awardPityPoints` nor `manualAwardPityPoints` (which write
`pityPointsEligible`) ever writes `pityPoints` — so after issuance from a
state with an empty `pityPoints` collection, `applyPityPoints` always throws
`No pity point found` and applies no points. -/
theorem pity_apply_reads_unwritten_collection :
    (∀ db u prevK w now curK, alookup db.pityPoints (prevK, u) = none →
        applyPityPoints db (some u) prevK w now curK
          = CallResult.err db ⟨ErrCode.notFound, "No pity point found"⟩) ∧
    (∀ db K W, (awardPityPoints db K W).pityPoints = db.pityPoints) ∧
    (∀ db arg defK db2 n, manualAwardPityPoints db arg defK = CallResult.ok db2 n →
        db2.pityPoints = db.pityPoints) ∧
    (∀ db K W u prevK w now curK, db.pityPoints = [] →
        applyPityPoints (awardPityPoints db K W) (some u) prevK w now curK
          = CallResult.err (awardPityPoints db K W)
              ⟨ErrCode.notFound, "No pity point found"⟩) := by
  refine ⟨?_, ?_, ?_, ?_⟩
  · intro db u prevK w now curK h
    simp [applyPityPoints, h]
  · intro db K W
    rfl
  · intro db arg defK db2 n h
    simp only [manualAwardPityPoints] at h
    split at h
    · exact CallResult.noConfusion h
    rw [CallResult.ok.injEq] at h
    rw [← h.1]
  · intro db K W u prevK w now curK h
    have hnone : alookup (awardPityPoints db K W).pityPoints (prevK, u) = none := by
      show alookup db.pityPoints (prevK, u) = none
      rw [h]
      rfl
    simp [applyPityPoints, hnone]

/-- State for the C10 witness: one non-winner pick, a settled winner record,
and an empty `pityPoints` collection. -/
def c10Winner : CycleWinner := ⟨"winnerW", "WName", "", "", 9, 1, 10, 100, "cycleK", 100⟩

/-- The database the issuer runs on. -/
def c10Db : DB :=
  ⟨[], [(("cycleK", "userU"), ⟨"creatorC", 5⟩)], [], [], [], [], [],
    [("cycleK", c10Winner)], [], []⟩

/-- Witness for C10: all four parts applied at concrete states. -/
theorem pity_apply_reads_unwritten_collection_witness :
    applyPityPoints emptyDb (some "userU") "cyclePrevK" "w" 5 "cycleK"
        = CallResult.err emptyDb ⟨ErrCode.notFound, "No pity point found"⟩ ∧
    (awardPityPoints c10Db "cycleK" "winnerW").pityPoints = c10Db.pityPoints ∧
    (manualAwardPityPoints c10Db (some "cycleK") "cycleDef").db.pityPoints
        = c10Db.pityPoints ∧
    applyPityPoints (awardPityPoints c10Db "cycleK" "winnerW") (some "userU") "cycleK"
        "w" 5 "cycleK"
      = CallResult.err (awardPityPoints c10Db "cycleK" "winnerW")
          ⟨ErrCode.notFound, "No pity point found"⟩ :=
  ⟨pity_apply_reads_unwritten_collection.1 emptyDb "userU" "cyclePrevK" "w" 5 "cycleK" rfl,
    pity_apply_reads_unwritten_collection.2.1 c10Db "cycleK" "winnerW",
    pity_apply_reads_unwritten_collection.2.2.1 c10Db (some "cycleK") "cycleDef"
      (manualAwardPityPoints c10Db (some "cycleK") "cycleDef").db 1 (by rfl),
    pity_apply_reads_unwritten_collection.2.2.2 c10Db "cycleK" "winnerW" "userU" "cycleK"
      "w" 5 "cycleK" rfl⟩

end SubGames
